import Mathlib

/-!
Swagger UI handler for Iris: dispatch, content types and configuration

A shallow embedding of `swagger.go`: the configuration value and its
configurators, the construction of the request handler (`Handler`,
`DisablingHandler`) and the per-request dispatch of the returned closure.

Go strings are modelled by Lean strings read as sequences of characters.
The code only compares strings for equality, slices them at positions found
by scanning for the ASCII bytes `.` and `/`, and trims a prefix or suffix;
an ASCII byte never occurs inside a multi-byte UTF-8 sequence, so slicing by
characters and slicing by bytes give the same text.
-/

namespace Swagger

/-! ## The `strings` functions used by the code -/

/-- Go `strings.HasPrefix`: `len(s) >= len(prefix) && s[0:len(prefix)] == prefix`. -/
def HasPrefix (s pre : String) : Bool :=
  decide (pre.data.length ≤ s.data.length) && decide (s.data.take pre.data.length = pre.data)

/-- Go `strings.TrimPrefix`: `s[len(prefix):]` when `HasPrefix(s, prefix)`, else `s`. -/
def TrimPrefix (s pre : String) : String :=
  if HasPrefix s pre then ⟨s.data.drop pre.data.length⟩ else s

/-- Go `strings.HasSuffix`: `len(s) >= len(suffix) && s[len(s)-len(suffix):] == suffix`. -/
def HasSuffix (s suf : String) : Bool :=
  decide (suf.data.length ≤ s.data.length) &&
    decide (s.data.drop (s.data.length - suf.data.length) = suf.data)

/-- Go `strings.TrimSuffix`: `s[:len(s)-len(suffix)]` when `HasSuffix(s, suffix)`, else `s`. -/
def TrimSuffix (s suf : String) : String :=
  if HasSuffix s suf then ⟨s.data.take (s.data.length - suf.data.length)⟩ else s

/-- The loop of Go `strings.LastIndexByte`: `for i := len(s) - 1; i >= 0; i--`, returning
the first `i` met with `s[i] == c` and `-1` when the loop ends. The argument `n` is the
number of positions still to visit (`i = n - 1`). -/
def lastIndexLoop (s : List Char) (c : Char) : Nat → Int
  | 0 => -1
  | i + 1 => if s.get? i = some c then (i : Int) else lastIndexLoop s c i

/-- Go `strings.LastIndexByte(s, c)`. -/
def LastIndexByte (s : String) (c : Char) : Int :=
  lastIndexLoop s.data c s.data.length

/-- Go slice expression `s[i:]`. -/
def sliceFrom (s : String) (i : Int) : String :=
  ⟨s.data.drop i.toNat⟩

/-! ## Configuration and configurators -/

/-- `Config` stores swagger configuration variables. -/
structure Config where
  URL : String
  Prefix : String
  FontCDN : String
  DeepLinking : Bool
  DocExpansion : String
  DomID : String
  Filter : Bool
  deriving DecidableEq, Repr

/-- `func (c Config) Configure(config *Config)`: the six assignments of the method,
in the order of the source; `FontCDN` is not assigned. -/
def Config.Configure (c : Config) (config : Config) : Config :=
  let config := { config with URL := c.URL }
  let config := { config with Prefix := c.Prefix }
  let config := { config with DeepLinking := c.DeepLinking }
  let config := { config with DocExpansion := c.DocExpansion }
  let config := { config with DomID := c.DomID }
  let config := { config with Filter := c.Filter }
  config

/-- `ConfiguratorFunc` is `func(*Config)`: an in-place update of the configuration. -/
abbrev ConfiguratorFunc := Config → Config

/-- The `Configurator` interface with its two implementations:
a `ConfiguratorFunc` and a `Config` value. -/
inductive Configurator where
  | func (fn : ConfiguratorFunc)
  | value (c : Config)

/-- Method `Configure` of the interface: `fn(config)` for a `ConfiguratorFunc`,
`Config.Configure` for a `Config`. -/
def Configurator.Configure : Configurator → Config → Config
  | .func fn, config => fn config
  | .value c, config => c.Configure config

/-- `func URL(url string) ConfiguratorFunc`. -/
def URL (url : String) : ConfiguratorFunc := fun c => { c with URL := url }

/-- `func Prefix(prefix string) ConfiguratorFunc`. -/
def Prefix (pre : String) : ConfiguratorFunc := fun c => { c with Prefix := pre }

/-- `func FontCDN(cdn string) ConfiguratorFunc`: a trailing `/` is trimmed first. -/
def FontCDN (cdn : String) : ConfiguratorFunc :=
  let cdn := TrimSuffix cdn "/"
  fun c => { c with FontCDN := cdn }

/-- `func DocExpansion(docExpansion string) ConfiguratorFunc`. -/
def DocExpansion (docExpansion : String) : ConfiguratorFunc :=
  fun c => { c with DocExpansion := docExpansion }

/-- `func DomID(domID string) ConfiguratorFunc`. -/
def DomID (domID : String) : ConfiguratorFunc := fun c => { c with DomID := domID }

/-- `func DeepLinking(deepLinking bool) ConfiguratorFunc`. -/
def DeepLinking (deepLinking : Bool) : ConfiguratorFunc :=
  fun c => { c with DeepLinking := deepLinking }

/-! ## The handler -/

/-- The delegate `*webdav.Handler`. `Handler` reads and writes only its `Prefix` field;
`Rest` stands for the fields it never touches (file system, lock system, logger). -/
structure WebdavHandler where
  Prefix : String
  Rest : Nat
  deriving DecidableEq, Repr

/-- The calls a handler makes on the request context and on its collaborators,
in the order of execution. -/
inductive Call where
  /-- Call `ctx.ContentType(cType)`. -/
  | contentType (cType : String)
  /-- Call `indexTmpl.Execute(ctx, config)`. -/
  | executeIndex (data : Config)
  /-- Call `swag.ReadDoc()`. -/
  | readDoc
  /-- Call `ctx.Application().Logger().Errorf("swagger: %v", err)`. -/
  | errorf (err : String)
  /-- Call `ctx.StopWithStatus(code)`. -/
  | stopWithStatus (code : Nat)
  /-- Call `ctx.WriteString(doc)`. -/
  | writeString (doc : String)
  /-- Call `h.ServeHTTP(ctx.ResponseWriter(), ctx.Request())`, with the state of the
  delegate at the time of the request and the untouched request path. -/
  | serveHTTP (h : WebdavHandler) (requestPath : String)
  /-- Call `ctx.NotFound()`. -/
  | notFound
  deriving DecidableEq, Repr

/-- Results of the external collaborators during one request: the error returned by
`indexTmpl.Execute` (`none` for `nil`) and the result of `swag.ReadDoc()`. -/
structure World where
  Execute : Config → Option String
  ReadDoc : Except String String

/-- `iris.StatusInternalServerError`. -/
def StatusInternalServerError : Nat := 500

/-- The default configuration `Handler` starts from. -/
def defaultConfig : Config :=
  { URL := "doc.json"
    DeepLinking := true
    DocExpansion := "list"
    DomID := "#swagger-ui"
    Prefix := "/swagger"
    FontCDN := "https://fonts.googleapis.com"
    Filter := true }

/-- The loop `for _, c := range configurators { c.Configure(config) }`. -/
def applyConfigurators (configurators : List Configurator) (config : Config) : Config :=
  configurators.foldl (fun config c => c.Configure config) config

/-- Content-type detection, lines 141-153 of `swagger.go`: the `if sufIdx > 0` block with
its `switch suffix`. -/
def detectContentType (path : String) : List Call :=
  let sufIdx := LastIndexByte path '.'
  if sufIdx > 0 then
    let suffix := sliceFrom path sufIdx
    if suffix = ".html" then [Call.contentType "text/html; charset=utf-8"]
    else if suffix = ".css" then [Call.contentType "text/css; charset=utf-8"]
    else if suffix = ".js" then [Call.contentType "application/javascript"]
    else if suffix = ".json" then [Call.contentType "application/json"]
    else []
  else []

/-- The `switch path` of the handler, lines 155-174 of `swagger.go`. -/
def dispatch (config : Config) (h : WebdavHandler) (w : World) (requestPath path : String) :
    List Call :=
  if path = "" ∨ path = "/" ∨ path = "/index.html" then
    [Call.contentType "text/html; charset=utf-8", Call.executeIndex config] ++
      (match w.Execute config with
       | some err => [Call.errorf err, Call.stopWithStatus StatusInternalServerError]
       | none => [])
  else if path = "/doc.json" then
    Call.readDoc ::
      (match w.ReadDoc with
       | .error err => [Call.errorf err, Call.stopWithStatus StatusInternalServerError]
       | .ok doc => [Call.writeString doc])
  else
    [Call.serveHTTP h requestPath]

/-- The closure `handler := func(ctx iris.Context) {...}` of `Handler`, given the
configuration it captured, the current state of the delegate it points to, and the
request path `ctx.Path()`. -/
def handlerFunc (config : Config) (h : WebdavHandler) (w : World) (ctxPath : String) :
    List Call :=
  let path := TrimPrefix ctxPath config.Prefix
  detectContentType path ++ dispatch config h w ctxPath path

/-- An `iris.Handler` value returned by this package: the closure of `Handler`, which
captures its configuration (and a pointer to the delegate), or the closure of
`DisablingHandler` that only calls `ctx.NotFound()`. -/
inductive IrisHandler where
  | swaggerUI (config : Config)
  | disabled
  deriving DecidableEq, Repr

/-- Running a returned handler on one request. The delegate is passed in its state at
the time of the request, since the closure holds a pointer to it. -/
def IrisHandler.serve : IrisHandler → WebdavHandler → World → String → List Call
  | .swaggerUI config, h, w, ctxPath => handlerFunc config h w ctxPath
  | .disabled, _, _, _ => [Call.notFound]

/-- The comparison prefix a returned handler trims request paths with, if it trims. -/
def IrisHandler.comparisonPrefix : IrisHandler → Option String
  | .swaggerUI config => some config.Prefix
  | .disabled => none

/-- `func Handler(h *webdav.Handler, configurators ...Configurator) iris.Handler`.
Returns the state of the delegate after the call together with the handler. -/
def Handler (h : WebdavHandler) (configurators : List Configurator) :
    WebdavHandler × IrisHandler :=
  let config := applyConfigurators configurators defaultConfig
  let pre := config.Prefix
  if pre ≠ "" ∧ pre ≠ "." then
    ({ h with Prefix := pre }, IrisHandler.swaggerUI config)
  else
    (h, IrisHandler.swaggerUI { config with Prefix := "." })

/-- `func DisablingHandler(h *webdav.Handler, envName string, configurators ...Configurator)`.
`Getenv` is the process environment as read by `os.Getenv` (empty for an unset
variable) at the time of the call. -/
def DisablingHandler (Getenv : String → String) (h : WebdavHandler) (envName : String)
    (configurators : List Configurator) : WebdavHandler × IrisHandler :=
  let eFlag := Getenv envName
  if eFlag ≠ "" then
    (h, IrisHandler.disabled)
  else
    Handler h configurators

/-! ## Reading a trace of calls -/

/-- The handler rendered the index page: it executed the index template. -/
def rendersIndex (calls : List Call) : Bool :=
  calls.any fun c => match c with
    | .executeIndex _ => true
    | _ => false

/-- The handler took the document branch: it asked the registry for the document. -/
def returnsDoc (calls : List Call) : Bool :=
  calls.any fun c => match c with
    | .readDoc => true
    | _ => false

/-- The handler delegated the request to the static-asset handler. -/
def delegates (calls : List Call) : Bool :=
  calls.any fun c => match c with
    | .serveHTTP _ _ => true
    | _ => false

/-- The content types passed to `ctx.ContentType`, in order. -/
def contentTypes : List Call → List String
  | [] => []
  | .contentType t :: rest => t :: contentTypes rest
  | _ :: rest => contentTypes rest

/-- Status code of the response after the calls, by the contract of the framework:
200 unless set by `ctx.NotFound()` (404), by `ctx.StopWithStatus(code)` before anything
is written, or by the delegate, whose status for a request is given by `delegateStatus`.
`indexTmpl.Execute` writes the leading text of the page to the response as it runs, which
commits status 200; a `ctx.StopWithStatus` after it does not change the status sent. -/
def status (delegateStatus : WebdavHandler → String → Nat) : List Call → Nat
  | [] => 200
  | .notFound :: _ => 404
  | .stopWithStatus code :: _ => code
  | .serveHTTP h p :: _ => delegateStatus h p
  | .executeIndex _ :: _ => 200
  | _ :: rest => status delegateStatus rest

/-! ## Fields of the configuration, for statements about configurators -/

/-- The seven fields of `Config`. -/
inductive Field where
  | URL
  | Prefix
  | FontCDN
  | DeepLinking
  | DocExpansion
  | DomID
  | Filter
  deriving DecidableEq, Repr

/-- A value of a field of `Config`: a Go `string` or a Go `bool`. -/
inductive Value where
  | str (s : String)
  | bool (b : Bool)
  deriving DecidableEq, Repr

/-- Reading a field of a configuration. -/
def Config.get (c : Config) : Field → Value
  | .URL => .str c.URL
  | .Prefix => .str c.Prefix
  | .FontCDN => .str c.FontCDN
  | .DeepLinking => .bool c.DeepLinking
  | .DocExpansion => .str c.DocExpansion
  | .DomID => .str c.DomID
  | .Filter => .bool c.Filter

/-- A configurator sets field `f` to `v`: whatever the configuration was, after
`Configure` the field holds `v`. -/
def Configurator.sets (b : Configurator) (f : Field) (v : Value) : Prop :=
  ∀ c : Config, (b.Configure c).get f = v

/-! ## Facts about the string functions -/

theorem HasPrefix_iff (s pre : String) : HasPrefix s pre = true ↔ pre.data <+: s.data := by
  unfold HasPrefix
  simp only [Bool.and_eq_true, decide_eq_true_eq]
  constructor
  · rintro ⟨_, h⟩
    rw [← h]
    exact List.take_prefix _ _
  · intro h
    refine ⟨h.length_le, ?_⟩
    exact List.prefix_iff_eq_take.mp h |>.symm

theorem TrimPrefix_of_append (P X s : String) (h : P.data = X.data ++ s.data) :
    TrimPrefix P X = s := by
  have hp : HasPrefix P X = true := (HasPrefix_iff P X).mpr ⟨s.data, h.symm⟩
  unfold TrimPrefix
  rw [if_pos hp]
  apply String.ext
  simp [h]

theorem TrimPrefix_of_not_prefix (P X : String) (h : ¬ X.data <+: P.data) :
    TrimPrefix P X = P := by
  have hp : ¬ HasPrefix P X = true := fun hp => h ((HasPrefix_iff P X).mp hp)
  unfold TrimPrefix
  rw [if_neg hp]

theorem TrimPrefix_suffix (P X : String) : (TrimPrefix P X).data <:+ P.data := by
  unfold TrimPrefix
  split
  · exact List.drop_suffix _ _
  · exact List.suffix_refl _

theorem lastIndexLoop_of_last (pre rest : List Char) (c : Char) (hc : c ∉ rest) (n : Nat)
    (h1 : pre.length < n) (h2 : n ≤ (pre ++ c :: rest).length) :
    lastIndexLoop (pre ++ c :: rest) c n = (pre.length : Int) := by
  induction n with
  | zero => omega
  | succ k ih =>
    unfold lastIndexLoop
    by_cases hk : k = pre.length
    · subst hk
      have hget : (pre ++ c :: rest).get? pre.length = some c := by
        rw [List.get?_eq_getElem?, List.getElem?_append_right (le_refl _)]
        simp
      rw [if_pos hget]
    · have hlt : pre.length < k := by omega
      have hget : (pre ++ c :: rest).get? k ≠ some c := by
        intro hg
        have hk2 : k < (pre ++ c :: rest).length := by omega
        rw [List.get?_eq_getElem?, List.getElem?_append_right (by omega)] at hg
        obtain ⟨j, hj⟩ : ∃ j, k - pre.length = j + 1 := ⟨k - pre.length - 1, by omega⟩
        rw [hj, List.getElem?_cons_succ] at hg
        exact hc (List.getElem?_mem hg)
      rw [if_neg hget]
      exact ih hlt (by omega)

theorem LastIndexByte_of_last (s : String) (pre rest : List Char) (c : Char)
    (hs : s.data = pre ++ c :: rest) (hc : c ∉ rest) :
    LastIndexByte s c = (pre.length : Int) := by
  unfold LastIndexByte
  rw [hs]
  exact lastIndexLoop_of_last pre rest c hc _ (by simp) (le_refl _)

/-! ## The two passes of the handler -/

theorem detectContentType_cases (path : String) :
    detectContentType path = [] ∨ ∃ t, detectContentType path = [Call.contentType t] := by
  unfold detectContentType
  simp only
  split
  · split
    · exact Or.inr ⟨_, rfl⟩
    · split
      · exact Or.inr ⟨_, rfl⟩
      · split
        · exact Or.inr ⟨_, rfl⟩
        · split
          · exact Or.inr ⟨_, rfl⟩
          · exact Or.inl rfl
  · exact Or.inl rfl

theorem rendersIndex_detect_append (path : String) (rest : List Call) :
    rendersIndex (detectContentType path ++ rest) = rendersIndex rest := by
  rcases detectContentType_cases path with h | ⟨t, h⟩ <;> rw [h] <;> simp [rendersIndex]

theorem returnsDoc_detect_append (path : String) (rest : List Call) :
    returnsDoc (detectContentType path ++ rest) = returnsDoc rest := by
  rcases detectContentType_cases path with h | ⟨t, h⟩ <;> rw [h] <;> simp [returnsDoc]

theorem delegates_detect_append (path : String) (rest : List Call) :
    delegates (detectContentType path ++ rest) = delegates rest := by
  rcases detectContentType_cases path with h | ⟨t, h⟩ <;> rw [h] <;> simp [delegates]

theorem dispatch_index (config : Config) (h : WebdavHandler) (w : World) (P path : String)
    (hp : path = "" ∨ path = "/" ∨ path = "/index.html") :
    rendersIndex (dispatch config h w P path) = true ∧
    returnsDoc (dispatch config h w P path) = false ∧
    delegates (dispatch config h w P path) = false := by
  unfold dispatch
  rw [if_pos hp]
  cases w.Execute config <;> simp [rendersIndex, returnsDoc, delegates]

theorem dispatch_doc (config : Config) (h : WebdavHandler) (w : World) (P path : String)
    (hp : path = "/doc.json") :
    rendersIndex (dispatch config h w P path) = false ∧
    returnsDoc (dispatch config h w P path) = true ∧
    delegates (dispatch config h w P path) = false := by
  subst hp
  unfold dispatch
  rw [if_neg (by decide), if_pos rfl]
  cases w.ReadDoc <;> simp [rendersIndex, returnsDoc, delegates]

theorem dispatch_default (config : Config) (h : WebdavHandler) (w : World) (P path : String)
    (h1 : ¬ (path = "" ∨ path = "/" ∨ path = "/index.html")) (h2 : path ≠ "/doc.json") :
    dispatch config h w P path = [Call.serveHTTP h P] := by
  unfold dispatch
  rw [if_neg h1, if_neg h2]

/-- The three readings of a trace of the closure of `Handler`, by the trimmed path. -/
theorem handlerFunc_branches (config : Config) (h : WebdavHandler) (w : World) (P : String) :
    (rendersIndex (handlerFunc config h w P) = true ↔
      (TrimPrefix P config.Prefix = "" ∨ TrimPrefix P config.Prefix = "/" ∨
        TrimPrefix P config.Prefix = "/index.html")) ∧
    (returnsDoc (handlerFunc config h w P) = true ↔ TrimPrefix P config.Prefix = "/doc.json") ∧
    (delegates (handlerFunc config h w P) = true ↔
      (¬ (TrimPrefix P config.Prefix = "" ∨ TrimPrefix P config.Prefix = "/" ∨
        TrimPrefix P config.Prefix = "/index.html") ∧
        TrimPrefix P config.Prefix ≠ "/doc.json")) := by
  unfold handlerFunc
  simp only [rendersIndex_detect_append, returnsDoc_detect_append, delegates_detect_append]
  generalize TrimPrefix P config.Prefix = path
  by_cases h1 : path = "" ∨ path = "/" ∨ path = "/index.html"
  · obtain ⟨a, b, c⟩ := dispatch_index config h w P path h1
    have hne : path ≠ "/doc.json" := by
      rcases h1 with h1 | h1 | h1 <;> rw [h1] <;> decide
    simp [a, b, c, h1, hne]
  · by_cases h2 : path = "/doc.json"
    · obtain ⟨a, b, c⟩ := dispatch_doc config h w P path h2
      subst h2
      rw [a, b, c]
      decide
    · rw [dispatch_default config h w P path h1 h2]
      simp [rendersIndex, returnsDoc, delegates, h1, h2]

/-! ## Dispatch (C1) -/

/-- C1. For every comparison prefix `X` captured by a handler that `Handler` returned and
every request path `P`, with `suffixPath` the path `P` with one leading `X` removed (`P`
itself when `X` is not a prefix of `P`): the handler renders the index page exactly when
`suffixPath` is `""`, `"/"` or `"/index.html"`, takes the document branch exactly when it
is `"/doc.json"`, delegates to the static-asset handler in every other case, and exactly
one of the three happens. -/
theorem Handler_dispatch_three_way (h0 hNow : WebdavHandler) (cs : List Configurator)
    (w : World) (X P suffixPath : String)
    (hX : (Handler h0 cs).2.comparisonPrefix = some X)
    (hs : P.data = X.data ++ suffixPath.data ∨ (¬ X.data <+: P.data ∧ suffixPath = P)) :
    (rendersIndex ((Handler h0 cs).2.serve hNow w P) = true ↔
      (suffixPath = "" ∨ suffixPath = "/" ∨ suffixPath = "/index.html")) ∧
    (returnsDoc ((Handler h0 cs).2.serve hNow w P) = true ↔ suffixPath = "/doc.json") ∧
    (delegates ((Handler h0 cs).2.serve hNow w P) = true ↔
      (¬ (suffixPath = "" ∨ suffixPath = "/" ∨ suffixPath = "/index.html") ∧
        suffixPath ≠ "/doc.json")) ∧
    (rendersIndex ((Handler h0 cs).2.serve hNow w P),
      returnsDoc ((Handler h0 cs).2.serve hNow w P),
      delegates ((Handler h0 cs).2.serve hNow w P)) ∈
        [(true, false, false), (false, true, false), (false, false, true)] := by
  obtain ⟨config, hc⟩ : ∃ config, (Handler h0 cs).2 = IrisHandler.swaggerUI config := by
    unfold Handler
    simp only
    split <;> exact ⟨_, rfl⟩
  rw [hc] at hX ⊢
  simp only [IrisHandler.comparisonPrefix, Option.some.injEq] at hX
  simp only [IrisHandler.serve]
  have ht : TrimPrefix P config.Prefix = suffixPath := by
    rw [hX]
    rcases hs with hs | ⟨hn, hs⟩
    · exact TrimPrefix_of_append P X suffixPath hs
    · rw [hs]
      exact TrimPrefix_of_not_prefix P X hn
  obtain ⟨b1, b2, b3⟩ := handlerFunc_branches config hNow w P
  rw [ht] at b1 b2 b3
  refine ⟨b1, b2, b3, ?_⟩
  by_cases h1 : suffixPath = "" ∨ suffixPath = "/" ∨ suffixPath = "/index.html"
  · have hne : suffixPath ≠ "/doc.json" := by
      rcases h1 with h1 | h1 | h1 <;> rw [h1] <;> decide
    have e1 := b1.mpr h1
    have e2 : returnsDoc (handlerFunc config hNow w P) = false := by
      rw [Bool.eq_false_iff]
      exact fun hh => hne (b2.mp hh)
    have e3 : delegates (handlerFunc config hNow w P) = false := by
      rw [Bool.eq_false_iff]
      exact fun hh => (b3.mp hh).1 h1
    rw [e1, e2, e3]
    decide
  · have e1 : rendersIndex (handlerFunc config hNow w P) = false := by
      rw [Bool.eq_false_iff]
      exact fun hh => h1 (b1.mp hh)
    by_cases h2 : suffixPath = "/doc.json"
    · have e2 := b2.mpr h2
      have e3 : delegates (handlerFunc config hNow w P) = false := by
        rw [Bool.eq_false_iff]
        exact fun hh => (b3.mp hh).2 h2
      rw [e1, e2, e3]
      decide
    · have e2 : returnsDoc (handlerFunc config hNow w P) = false := by
        rw [Bool.eq_false_iff]
        exact fun hh => h2 (b2.mp hh)
      have e3 := b3.mpr ⟨h1, h2⟩
      rw [e1, e2, e3]
      decide

/-- Witness of C1: the default handler at `"/swagger/doc.json"`, whose `suffixPath`
is `"/doc.json"`. -/
theorem Handler_dispatch_three_way_witness :
    (rendersIndex ((Handler ⟨"", 0⟩ []).2.serve ⟨"/swagger", 0⟩ ⟨fun _ => none, .ok "doc"⟩
        "/swagger/doc.json") = true ↔
      (("/doc.json" : String) = "" ∨ ("/doc.json" : String) = "/" ∨
        ("/doc.json" : String) = "/index.html")) ∧
    (returnsDoc ((Handler ⟨"", 0⟩ []).2.serve ⟨"/swagger", 0⟩ ⟨fun _ => none, .ok "doc"⟩
        "/swagger/doc.json") = true ↔ ("/doc.json" : String) = "/doc.json") ∧
    (delegates ((Handler ⟨"", 0⟩ []).2.serve ⟨"/swagger", 0⟩ ⟨fun _ => none, .ok "doc"⟩
        "/swagger/doc.json") = true ↔
      (¬ (("/doc.json" : String) = "" ∨ ("/doc.json" : String) = "/" ∨
        ("/doc.json" : String) = "/index.html") ∧ ("/doc.json" : String) ≠ "/doc.json")) ∧
    (rendersIndex ((Handler ⟨"", 0⟩ []).2.serve ⟨"/swagger", 0⟩ ⟨fun _ => none, .ok "doc"⟩
        "/swagger/doc.json"),
      returnsDoc ((Handler ⟨"", 0⟩ []).2.serve ⟨"/swagger", 0⟩ ⟨fun _ => none, .ok "doc"⟩
        "/swagger/doc.json"),
      delegates ((Handler ⟨"", 0⟩ []).2.serve ⟨"/swagger", 0⟩ ⟨fun _ => none, .ok "doc"⟩
        "/swagger/doc.json")) ∈
        [(true, false, false), (false, true, false), (false, false, true)] :=
  Handler_dispatch_three_way ⟨"", 0⟩ ⟨"/swagger", 0⟩ [] ⟨fun _ => none, .ok "doc"⟩
    "/swagger" "/swagger/doc.json" "/doc.json" (by decide) (Or.inl (by decide))

/-! ## Content-type detection (C2, C10) -/

theorem sliceFrom_suffix (path ext : String) (i : Int) (h : sliceFrom path i = ext) :
    ext.data <:+ path.data := by
  rw [← h]
  exact List.drop_suffix _ _

theorem sliceFrom_of_last (path : String) (pre rest : List Char)
    (hs : path.data = pre ++ '.' :: rest) :
    sliceFrom path (pre.length : Int) = ⟨'.' :: rest⟩ := by
  apply String.ext
  simp [sliceFrom, hs]

/-- C2 (amended). For every prefix `X` and request path `P`, if `suffixPath` (`P` with
leading `X` removed) reads `pre ++ "." ++ rest` where `rest` holds no `.` (the dot is the
last one) and no `/` (it stands after the last `/`), and that dot is not the first
character of `suffixPath`, then the detection step calls `ctx.ContentType` with
`"text/html; charset=utf-8"`, `"text/css; charset=utf-8"`, `"application/javascript"` or
`"application/json"` when the text from the dot on is `".html"`, `".css"`, `".js"` or
`".json"` respectively, and makes no other call. -/
theorem detectContentType_of_extension (X P : String) (pre rest : List Char)
    (hs : (TrimPrefix P X).data = pre ++ '.' :: rest)
    (hdot : '.' ∉ rest) (_hslash : '/' ∉ rest) (hpre : pre ≠ []) :
    ((⟨'.' :: rest⟩ : String) = ".html" →
      detectContentType (TrimPrefix P X) = [Call.contentType "text/html; charset=utf-8"]) ∧
    ((⟨'.' :: rest⟩ : String) = ".css" →
      detectContentType (TrimPrefix P X) = [Call.contentType "text/css; charset=utf-8"]) ∧
    ((⟨'.' :: rest⟩ : String) = ".js" →
      detectContentType (TrimPrefix P X) = [Call.contentType "application/javascript"]) ∧
    ((⟨'.' :: rest⟩ : String) = ".json" →
      detectContentType (TrimPrefix P X) = [Call.contentType "application/json"]) := by
  have hidx : LastIndexByte (TrimPrefix P X) '.' = (pre.length : Int) :=
    LastIndexByte_of_last _ pre rest '.' hs hdot
  have hpos : (pre.length : Int) > 0 := by
    have : 0 < pre.length := List.length_pos.mpr hpre
    omega
  have hsl := sliceFrom_of_last (TrimPrefix P X) pre rest hs
  unfold detectContentType
  simp only [hidx, hpos, if_true, hsl]
  refine ⟨?_, ?_, ?_, ?_⟩ <;> intro he <;> rw [he] <;> decide

/-- Witness of C2 (amended): prefix `"/swagger"` and path `"/swagger/swagger-ui.css"`. -/
theorem detectContentType_of_extension_witness :
    ((⟨'.' :: "css".data⟩ : String) = ".html" →
      detectContentType (TrimPrefix "/swagger/swagger-ui.css" "/swagger") =
        [Call.contentType "text/html; charset=utf-8"]) ∧
    ((⟨'.' :: "css".data⟩ : String) = ".css" →
      detectContentType (TrimPrefix "/swagger/swagger-ui.css" "/swagger") =
        [Call.contentType "text/css; charset=utf-8"]) ∧
    ((⟨'.' :: "css".data⟩ : String) = ".js" →
      detectContentType (TrimPrefix "/swagger/swagger-ui.css" "/swagger") =
        [Call.contentType "application/javascript"]) ∧
    ((⟨'.' :: "css".data⟩ : String) = ".json" →
      detectContentType (TrimPrefix "/swagger/swagger-ui.css" "/swagger") =
        [Call.contentType "application/json"]) :=
  detectContentType_of_extension "/swagger" "/swagger/swagger-ui.css" "/swagger-ui".data
    "css".data (by decide) (by decide) (by decide) (by decide)

/-- C2 as stated fails: with prefix `"/swagger"` and request path `"/swagger.html"` the
`suffixPath` is `".html"`; its last `.` stands after every `/` (there is none) and the text
from it to the end is `".html"`, yet the detection step makes no call, because the index
of the dot is `0` and the code asks for `sufIdx > 0`. -/
theorem detectContentType_leading_dot_counterexample :
    (TrimPrefix "/swagger.html" "/swagger").data = [] ++ '.' :: "html".data ∧
    '.' ∉ "html".data ∧ '/' ∉ "html".data ∧
    (⟨'.' :: "html".data⟩ : String) = ".html" ∧
    LastIndexByte (TrimPrefix "/swagger.html" "/swagger") '.' = 0 ∧
    detectContentType (TrimPrefix "/swagger.html" "/swagger") = [] ∧
    detectContentType (TrimPrefix "/swagger.html" "/swagger") ≠
      [Call.contentType "text/html; charset=utf-8"] := by
  decide

/-- C10. For every prefix `X` and request path `P` that ends in none of `".html"`,
`".css"`, `".js"`, `".json"`, the detection step of the handler makes no call to
`ctx.ContentType`: it sets no content-type header. -/
theorem detectContentType_none_without_suffix (X P : String)
    (h1 : ¬ (".html" : String).data <:+ P.data) (h2 : ¬ (".css" : String).data <:+ P.data)
    (h3 : ¬ (".js" : String).data <:+ P.data) (h4 : ¬ (".json" : String).data <:+ P.data) :
    detectContentType (TrimPrefix P X) = [] := by
  have key : ∀ ext : String, ∀ i : Int, ¬ ext.data <:+ P.data →
      sliceFrom (TrimPrefix P X) i ≠ ext := by
    intro ext i hn he
    exact hn ((sliceFrom_suffix _ _ _ he).trans (TrimPrefix_suffix P X))
  unfold detectContentType
  simp only
  split
  · rw [if_neg (key _ _ h1), if_neg (key _ _ h2), if_neg (key _ _ h3), if_neg (key _ _ h4)]
  · rfl

/-- Witness of C10: prefix `"/swagger"` and path `"/swagger/favicon-16x16.png"`. -/
theorem detectContentType_none_without_suffix_witness :
    detectContentType (TrimPrefix "/swagger/favicon-16x16.png" "/swagger") = [] :=
  detectContentType_none_without_suffix "/swagger" "/swagger/favicon-16x16.png"
    (by decide) (by decide) (by decide) (by decide)

/-! ## Construction: the disabling wrapper, the prefix and the whole-value configurator -/

/-- C3. `DisablingHandler` decides at construction from the value of the named
environment variable. If the value is non-empty, the delegate is left as it was and the
returned handler only calls `ctx.NotFound()`, answering 404 for every request path, every
state of the delegate and every outcome of the collaborators (so also for paths ending in
`"/index.html"` and `"/doc.json"`). If the value is empty, the result is the result of
`Handler` with the same delegate and configurators, so every request gets the same
response. The returned handler does not read the environment when it serves. -/
theorem DisablingHandler_decides_at_construction (Getenv : String → String)
    (h : WebdavHandler) (envName : String) (cs : List Configurator) :
    (Getenv envName ≠ "" →
      (DisablingHandler Getenv h envName cs).1 = h ∧
      ∀ (hNow : WebdavHandler) (w : World) (P : String)
        (delegateStatus : WebdavHandler → String → Nat),
        (DisablingHandler Getenv h envName cs).2.serve hNow w P = [Call.notFound] ∧
        status delegateStatus ((DisablingHandler Getenv h envName cs).2.serve hNow w P) = 404) ∧
    (Getenv envName = "" →
      DisablingHandler Getenv h envName cs = Handler h cs ∧
      ∀ (hNow : WebdavHandler) (w : World) (P : String),
        (DisablingHandler Getenv h envName cs).2.serve hNow w P =
          (Handler h cs).2.serve hNow w P) := by
  constructor
  · intro hne
    have hd : DisablingHandler Getenv h envName cs = (h, IrisHandler.disabled) := by
      unfold DisablingHandler
      simp only
      rw [if_pos hne]
    rw [hd]
    refine ⟨rfl, ?_⟩
    intro hNow w P delegateStatus
    exact ⟨rfl, rfl⟩
  · intro he
    have hd : DisablingHandler Getenv h envName cs = Handler h cs := by
      unfold DisablingHandler
      simp only
      rw [if_neg (not_not.mpr he)]
    rw [hd]
    exact ⟨rfl, fun _ _ _ => rfl⟩

/-- Witness of C3: with `SWAGGER_DISABLE` set to `"true"`, the requests of the test for
`"/disabling/index.html"` and `"/disabling/doc.json"` get 404; with it unset, the wrapper
is `Handler`. -/
theorem DisablingHandler_decides_at_construction_witness :
    ((DisablingHandler (fun n => if n = "SWAGGER_DISABLE" then "true" else "") ⟨"", 0⟩
        "SWAGGER_DISABLE" []).2.serve ⟨"", 0⟩ ⟨fun _ => none, .ok "doc"⟩
        "/disabling/index.html" = [Call.notFound]) ∧
    ((DisablingHandler (fun n => if n = "SWAGGER_DISABLE" then "true" else "") ⟨"", 0⟩
        "SWAGGER_DISABLE" []).2.serve ⟨"", 0⟩ ⟨fun _ => none, .ok "doc"⟩
        "/disabling/doc.json" = [Call.notFound]) ∧
    (DisablingHandler (fun _ => "") ⟨"", 0⟩ "SWAGGER_DISABLE" [] = Handler ⟨"", 0⟩ []) :=
  ⟨(((DisablingHandler_decides_at_construction
        (fun n => if n = "SWAGGER_DISABLE" then "true" else "") ⟨"", 0⟩
        "SWAGGER_DISABLE" []).1 (by decide)).2 ⟨"", 0⟩ ⟨fun _ => none, .ok "doc"⟩
        "/disabling/index.html" (fun _ _ => 200)).1,
   (((DisablingHandler_decides_at_construction
        (fun n => if n = "SWAGGER_DISABLE" then "true" else "") ⟨"", 0⟩
        "SWAGGER_DISABLE" []).1 (by decide)).2 ⟨"", 0⟩ ⟨fun _ => none, .ok "doc"⟩
        "/disabling/doc.json" (fun _ _ => 200)).1,
   ((DisablingHandler_decides_at_construction (fun _ => "") ⟨"", 0⟩
        "SWAGGER_DISABLE" []).2 (by decide)).1⟩

/-- C4. For every list of configurators, with `c` the configuration after `Handler` has
applied them to the defaults: if `c.Prefix` is empty or exactly `"."`, the handler captures
`c` with `Prefix` set to `"."`, so its comparison prefix is `"."`, and the delegate is left
exactly as it was (its `Prefix` field included); otherwise the delegate's `Prefix` field is
set to `c.Prefix`, its other fields are untouched, and the handler captures `c` itself, so
the same string is the comparison prefix. -/
theorem Handler_prefix_normalized (h : WebdavHandler) (cs : List Configurator) :
    ((applyConfigurators cs defaultConfig).Prefix = "" ∨
        (applyConfigurators cs defaultConfig).Prefix = "." →
      (Handler h cs).2.comparisonPrefix = some "." ∧
      (Handler h cs).2 =
        IrisHandler.swaggerUI { applyConfigurators cs defaultConfig with Prefix := "." } ∧
      (Handler h cs).1 = h ∧ (Handler h cs).1.Prefix = h.Prefix) ∧
    (¬ ((applyConfigurators cs defaultConfig).Prefix = "" ∨
        (applyConfigurators cs defaultConfig).Prefix = ".") →
      (Handler h cs).1.Prefix = (applyConfigurators cs defaultConfig).Prefix ∧
      (Handler h cs).1.Rest = h.Rest ∧
      (Handler h cs).2 = IrisHandler.swaggerUI (applyConfigurators cs defaultConfig) ∧
      (Handler h cs).2.comparisonPrefix =
        some (applyConfigurators cs defaultConfig).Prefix) := by
  constructor
  · intro hrel
    have hn : ¬ ((applyConfigurators cs defaultConfig).Prefix ≠ "" ∧
        (applyConfigurators cs defaultConfig).Prefix ≠ ".") := by
      rintro ⟨a, b⟩
      rcases hrel with hrel | hrel
      · exact a hrel
      · exact b hrel
    unfold Handler
    simp only
    rw [if_neg hn]
    exact ⟨rfl, rfl, rfl, rfl⟩
  · intro habs
    have hp : (applyConfigurators cs defaultConfig).Prefix ≠ "" ∧
        (applyConfigurators cs defaultConfig).Prefix ≠ "." :=
      ⟨fun a => habs (Or.inl a), fun b => habs (Or.inr b)⟩
    unfold Handler
    simp only
    rw [if_pos hp]
    exact ⟨rfl, rfl, rfl, rfl⟩

/-- Witness of C4: the configurators `Prefix("")` and `Prefix("/docs")` on a delegate
whose prefix was `"/old"`. -/
theorem Handler_prefix_normalized_witness :
    ((Handler ⟨"/old", 7⟩ [.func (Prefix "")]).2.comparisonPrefix = some "." ∧
      (Handler ⟨"/old", 7⟩ [.func (Prefix "")]).1.Prefix = "/old") ∧
    ((Handler ⟨"/old", 7⟩ [.func (Prefix "/docs")]).1.Prefix = "/docs" ∧
      (Handler ⟨"/old", 7⟩ [.func (Prefix "/docs")]).2.comparisonPrefix = some "/docs") :=
  ⟨⟨((Handler_prefix_normalized ⟨"/old", 7⟩ [.func (Prefix "")]).1 (Or.inl (by decide))).1,
    ((Handler_prefix_normalized ⟨"/old", 7⟩ [.func (Prefix "")]).1
      (Or.inl (by decide))).2.2.2⟩,
   ⟨((Handler_prefix_normalized ⟨"/old", 7⟩ [.func (Prefix "/docs")]).2 (by decide)).1,
    ((Handler_prefix_normalized ⟨"/old", 7⟩ [.func (Prefix "/docs")]).2
      (by decide)).2.2.2⟩⟩

/-- C5. For every `Config` value `c` and every target `t`, after `c.Configure(&t)` the
fields `URL`, `Prefix`, `DeepLinking`, `DocExpansion`, `DomID` and `Filter` of the target
equal those of `c` and `FontCDN` is what it was before the call; so `Handler(h, Config{})`
captures `URL` `""`, `DeepLinking` false, `DocExpansion` `""`, `DomID` `""`, `Filter` false
and `FontCDN` still `"https://fonts.googleapis.com"`. -/
theorem Configure_copies_all_but_FontCDN (c t : Config) (h : WebdavHandler) :
    (c.Configure t).URL = c.URL ∧ (c.Configure t).Prefix = c.Prefix ∧
    (c.Configure t).DeepLinking = c.DeepLinking ∧
    (c.Configure t).DocExpansion = c.DocExpansion ∧
    (c.Configure t).DomID = c.DomID ∧ (c.Configure t).Filter = c.Filter ∧
    (c.Configure t).FontCDN = t.FontCDN ∧
    ((Configurator.value c).Configure t = c.Configure t) ∧
    (∃ captured : Config,
      (Handler h [Configurator.value ⟨"", "", "", false, "", "", false⟩]).2 =
        IrisHandler.swaggerUI captured ∧
      captured.URL = "" ∧ captured.DeepLinking = false ∧ captured.DocExpansion = "" ∧
      captured.DomID = "" ∧ captured.Filter = false ∧
      captured.FontCDN = "https://fonts.googleapis.com") := by
  refine ⟨rfl, rfl, rfl, rfl, rfl, rfl, rfl, rfl, ?_⟩
  exact ⟨_, rfl, by decide⟩

/-! ## Mount paths and the default prefix (C6) -/

theorem not_first_three {a b c d : Prop} (h : ¬ (a ∨ b ∨ c ∨ d)) : ¬ (a ∨ b ∨ c) := by
  tauto

theorem not_fourth {a b c d : Prop} (h : ¬ (a ∨ b ∨ c ∨ d)) : ¬ d := by
  tauto

theorem TrimPrefix_cases (P X : String) :
    P.data = X.data ++ (TrimPrefix P X).data ∨
      (¬ X.data <+: P.data ∧ TrimPrefix P X = P) := by
  by_cases hp : HasPrefix P X = true
  · left
    have hpre := (HasPrefix_iff P X).mp hp
    unfold TrimPrefix
    rw [if_pos hp]
    obtain ⟨t, ht⟩ := hpre
    simp [← ht]
  · right
    refine ⟨fun hh => hp ((HasPrefix_iff P X).mpr hh), ?_⟩
    unfold TrimPrefix
    rw [if_neg hp]

theorem Handler_nil (h : WebdavHandler) :
    Handler h [] = ({ h with Prefix := "/swagger" }, IrisHandler.swaggerUI defaultConfig) := by
  rfl

theorem DisablingHandler_unset (Getenv : String → String) (h : WebdavHandler)
    (envName : String) (cs : List Configurator) (he : Getenv envName = "") :
    DisablingHandler Getenv h envName cs = Handler h cs := by
  unfold DisablingHandler
  simp only
  rw [if_neg (not_not.mpr he)]

theorem trim_mount_index (m t : String)
    (ht : TrimPrefix (m ++ "/index.html") "/swagger" = t)
    (hcase : t = "" ∨ t = "/" ∨ t = "/index.html" ∨ t = "/doc.json") :
    m = "" ∨ m = "/swagger" := by
  have hc := TrimPrefix_cases (m ++ "/index.html") "/swagger"
  rw [ht, String.data_append] at hc
  rcases hc with hc | ⟨_, hc⟩
  · have hsuf : ("/index.html" : String).data <:+ ("/swagger" : String).data ++ t.data :=
      ⟨m.data, hc⟩
    rcases hcase with h | h | h | h
    · subst h; exact absurd hsuf (by decide)
    · subst h; exact absurd hsuf (by decide)
    · subst h
      right
      exact String.ext (List.append_cancel_right hc)
    · subst h; exact absurd hsuf (by decide)
  · have hc2 : m.data ++ ("/index.html" : String).data = t.data := by
      rw [hc, String.data_append]
    have hsuf : ("/index.html" : String).data <:+ t.data := ⟨m.data, hc2⟩
    rcases hcase with h | h | h | h
    · subst h; exact absurd hsuf (by decide)
    · subst h; exact absurd hsuf (by decide)
    · subst h
      left
      apply String.ext
      have : m.data ++ ("/index.html" : String).data = [] ++ ("/index.html" : String).data := by
        simpa using hc2
      exact List.append_cancel_right this
    · subst h; exact absurd hsuf (by decide)

theorem trim_mount_doc (m t : String)
    (ht : TrimPrefix (m ++ "/doc.json") "/swagger" = t)
    (hcase : t = "" ∨ t = "/" ∨ t = "/index.html" ∨ t = "/doc.json") :
    m = "" ∨ m = "/swagger" := by
  have hc := TrimPrefix_cases (m ++ "/doc.json") "/swagger"
  rw [ht, String.data_append] at hc
  rcases hc with hc | ⟨_, hc⟩
  · have hsuf : ("/doc.json" : String).data <:+ ("/swagger" : String).data ++ t.data :=
      ⟨m.data, hc⟩
    rcases hcase with h | h | h | h
    · subst h; exact absurd hsuf (by decide)
    · subst h; exact absurd hsuf (by decide)
    · subst h; exact absurd hsuf (by decide)
    · subst h
      right
      exact String.ext (List.append_cancel_right hc)
  · have hc2 : m.data ++ ("/doc.json" : String).data = t.data := by
      rw [hc, String.data_append]
    have hsuf : ("/doc.json" : String).data <:+ t.data := ⟨m.data, hc2⟩
    rcases hcase with h | h | h | h
    · subst h; exact absurd hsuf (by decide)
    · subst h; exact absurd hsuf (by decide)
    · subst h; exact absurd hsuf (by decide)
    · subst h
      left
      apply String.ext
      have : m.data ++ ("/doc.json" : String).data = [] ++ ("/doc.json" : String).data := by
        simpa using hc2
      exact List.append_cancel_right this

/-- Where the handler built with no configurators (default `Prefix` `"/swagger"`, the
disabling variable unset) sends the two requests under a mount path `m`: the request
`m ++ "/index.html"` reaches the index case and `m ++ "/doc.json"` the document case
exactly when `m` is `"/swagger"` or empty; under every other mount path both requests
reach the default case and are handed to the static-asset handler. -/
theorem default_mount_dispatch (Getenv : String → String) (envName : String)
    (h0 hNow : WebdavHandler) (w : World) (m : String) (hunset : Getenv envName = "") :
    ((m = "" ∨ m = "/swagger") →
      rendersIndex ((DisablingHandler Getenv h0 envName []).2.serve hNow w
        (m ++ "/index.html")) = true ∧
      returnsDoc ((DisablingHandler Getenv h0 envName []).2.serve hNow w
        (m ++ "/doc.json")) = true) ∧
    (¬ (m = "" ∨ m = "/swagger") →
      delegates ((DisablingHandler Getenv h0 envName []).2.serve hNow w
        (m ++ "/index.html")) = true ∧
      rendersIndex ((DisablingHandler Getenv h0 envName []).2.serve hNow w
        (m ++ "/index.html")) = false ∧
      delegates ((DisablingHandler Getenv h0 envName []).2.serve hNow w
        (m ++ "/doc.json")) = true ∧
      returnsDoc ((DisablingHandler Getenv h0 envName []).2.serve hNow w
        (m ++ "/doc.json")) = false) := by
  rw [DisablingHandler_unset Getenv h0 envName [] hunset, Handler_nil]
  simp only [IrisHandler.serve]
  constructor
  · intro hm
    have hi : TrimPrefix (m ++ "/index.html") defaultConfig.Prefix = "/index.html" := by
      rcases hm with hm | hm <;> subst hm <;> decide
    have hd : TrimPrefix (m ++ "/doc.json") defaultConfig.Prefix = "/doc.json" := by
      rcases hm with hm | hm <;> subst hm <;> decide
    exact ⟨(handlerFunc_branches defaultConfig hNow w _).1.mpr (Or.inr (Or.inr hi)),
      (handlerFunc_branches defaultConfig hNow w _).2.1.mpr hd⟩
  · intro hm
    have hi1 : ¬ (TrimPrefix (m ++ "/index.html") defaultConfig.Prefix = "" ∨
        TrimPrefix (m ++ "/index.html") defaultConfig.Prefix = "/" ∨
        TrimPrefix (m ++ "/index.html") defaultConfig.Prefix = "/index.html" ∨
        TrimPrefix (m ++ "/index.html") defaultConfig.Prefix = "/doc.json") :=
      fun hcase => hm (trim_mount_index m _ rfl hcase)
    have hd1 : ¬ (TrimPrefix (m ++ "/doc.json") defaultConfig.Prefix = "" ∨
        TrimPrefix (m ++ "/doc.json") defaultConfig.Prefix = "/" ∨
        TrimPrefix (m ++ "/doc.json") defaultConfig.Prefix = "/index.html" ∨
        TrimPrefix (m ++ "/doc.json") defaultConfig.Prefix = "/doc.json") :=
      fun hcase => hm (trim_mount_doc m _ rfl hcase)
    obtain ⟨a1, _, a3⟩ := handlerFunc_branches defaultConfig hNow w (m ++ "/index.html")
    obtain ⟨_, b2, b3⟩ := handlerFunc_branches defaultConfig hNow w (m ++ "/doc.json")
    refine ⟨?_, ?_, ?_, ?_⟩
    · exact a3.mpr ⟨not_first_three hi1, not_fourth hi1⟩
    · rw [Bool.eq_false_iff]
      exact fun hh => not_first_three hi1 (a1.mp hh)
    · exact b3.mpr ⟨not_first_three hd1, not_fourth hd1⟩
    · rw [Bool.eq_false_iff]
      exact fun hh => not_fourth hd1 (b2.mp hh)

/-- C6. The code at the instance of the test, where the claim asks for the index page
and the document with status 200: for the handler built by `DisablingHandler` with no
configurators and the variable unset (the construction sets the delegate's prefix to
`"/swagger"`), the requests `"/simple/index.html"` and `"/simple/doc.json"` are not
trimmed by the prefix `"/swagger"`, match neither case of the switch and are handed to
the static-asset handler; the index template is not executed and the document is not
read. -/
theorem DisablingHandler_simple_mount_delegated :
    (DisablingHandler (fun _ => "") ⟨"", 0⟩ "SWAGGER_DISABLE" []).1 = ⟨"/swagger", 0⟩ ∧
    TrimPrefix "/simple/index.html" "/swagger" = "/simple/index.html" ∧
    TrimPrefix "/simple/doc.json" "/swagger" = "/simple/doc.json" ∧
    (DisablingHandler (fun _ => "") ⟨"", 0⟩ "SWAGGER_DISABLE" []).2.serve
        ⟨"/swagger", 0⟩ ⟨fun _ => none, .ok "doc"⟩ "/simple/index.html" =
      [Call.contentType "text/html; charset=utf-8",
        Call.serveHTTP ⟨"/swagger", 0⟩ "/simple/index.html"] ∧
    rendersIndex ((DisablingHandler (fun _ => "") ⟨"", 0⟩ "SWAGGER_DISABLE" []).2.serve
        ⟨"/swagger", 0⟩ ⟨fun _ => none, .ok "doc"⟩ "/simple/index.html") = false ∧
    (DisablingHandler (fun _ => "") ⟨"", 0⟩ "SWAGGER_DISABLE" []).2.serve
        ⟨"/swagger", 0⟩ ⟨fun _ => none, .ok "doc"⟩ "/simple/doc.json" =
      [Call.contentType "application/json",
        Call.serveHTTP ⟨"/swagger", 0⟩ "/simple/doc.json"] ∧
    returnsDoc ((DisablingHandler (fun _ => "") ⟨"", 0⟩ "SWAGGER_DISABLE" []).2.serve
        ⟨"/swagger", 0⟩ ⟨fun _ => none, .ok "doc"⟩ "/simple/doc.json") = false := by
  decide

/-! ## The relative prefix (C7) -/

theorem Handler_captures_normalized (h : WebdavHandler) (cs : List Configurator) :
    ((applyConfigurators cs defaultConfig).Prefix = "" ∨
        (applyConfigurators cs defaultConfig).Prefix = "." →
      (Handler h cs).2 =
        IrisHandler.swaggerUI { applyConfigurators cs defaultConfig with Prefix := "." } ∧
      (Handler h cs).1 = h) ∧
    (¬ ((applyConfigurators cs defaultConfig).Prefix = "" ∨
        (applyConfigurators cs defaultConfig).Prefix = ".") →
      (Handler h cs).2 = IrisHandler.swaggerUI (applyConfigurators cs defaultConfig) ∧
      (Handler h cs).1 = { h with Prefix := (applyConfigurators cs defaultConfig).Prefix }) := by
  constructor
  · intro hrel
    have hn : ¬ ((applyConfigurators cs defaultConfig).Prefix ≠ "" ∧
        (applyConfigurators cs defaultConfig).Prefix ≠ ".") := by
      rintro ⟨a, b⟩
      rcases hrel with hrel | hrel
      · exact a hrel
      · exact b hrel
    unfold Handler
    simp only
    rw [if_neg hn]
    exact ⟨rfl, rfl⟩
  · intro habs
    have hp : (applyConfigurators cs defaultConfig).Prefix ≠ "" ∧
        (applyConfigurators cs defaultConfig).Prefix ≠ "." :=
      ⟨fun a => habs (Or.inl a), fun b => habs (Or.inr b)⟩
    unfold Handler
    simp only
    rw [if_pos hp]
    exact ⟨rfl, rfl⟩

theorem TrimPrefix_dot_of_slash (P : String) (tail : List Char) (hP : P.data = '/' :: tail) :
    TrimPrefix P "." = P := by
  apply TrimPrefix_of_not_prefix
  rw [hP]
  rintro ⟨t, ht⟩
  have hh := congrArg List.head? ht
  simp at hh

/-- C7 (amended). When the `Prefix` left by the configurators is empty or `"."` (as with
the zero-value `Config{}` alone), the handler compares with `"."` and trims nothing from a
request path `P` that begins with `"/"`: detection and dispatch both run on `P` itself, so
that `"/"` and `"/index.html"` render the index page, `"/doc.json"` takes the document
branch, and every other such path is delegated to the static-asset handler with the
request untouched. -/
theorem Handler_relative_prefix_no_trim (h0 hNow : WebdavHandler) (cs : List Configurator)
    (w : World) (P : String) (tail : List Char)
    (hrel : (applyConfigurators cs defaultConfig).Prefix = "" ∨
      (applyConfigurators cs defaultConfig).Prefix = ".")
    (hP : P.data = '/' :: tail) :
    (Handler h0 cs).2.comparisonPrefix = some "." ∧
    TrimPrefix P "." = P ∧
    (Handler h0 cs).2.serve hNow w P =
      detectContentType P ++
        dispatch { applyConfigurators cs defaultConfig with Prefix := "." } hNow w P P ∧
    (P = "/" ∨ P = "/index.html" → rendersIndex ((Handler h0 cs).2.serve hNow w P) = true) ∧
    (P = "/doc.json" → returnsDoc ((Handler h0 cs).2.serve hNow w P) = true) ∧
    (P ≠ "/" → P ≠ "/index.html" → P ≠ "/doc.json" →
      (Handler h0 cs).2.serve hNow w P = detectContentType P ++ [Call.serveHTTP hNow P]) := by
  have hH : (Handler h0 cs).2 =
      IrisHandler.swaggerUI { applyConfigurators cs defaultConfig with Prefix := "." } :=
    ((Handler_captures_normalized h0 cs).1 hrel).1
  have ht := TrimPrefix_dot_of_slash P tail hP
  have hserve : (Handler h0 cs).2.serve hNow w P =
      detectContentType P ++
        dispatch { applyConfigurators cs defaultConfig with Prefix := "." } hNow w P P := by
    rw [hH]
    simp only [IrisHandler.serve, handlerFunc, ht]
  have hne : P ≠ "" := by
    intro h
    rw [h] at hP
    exact List.noConfusion hP
  refine ⟨by rw [hH]; rfl, ht, hserve, ?_, ?_, ?_⟩
  · intro hp
    rw [hserve, rendersIndex_detect_append]
    exact (dispatch_index _ hNow w P P (Or.inr hp)).1
  · intro hp
    rw [hserve, returnsDoc_detect_append]
    exact (dispatch_doc _ hNow w P P hp).2.1
  · intro h1 h2 h3
    rw [hserve, dispatch_default _ hNow w P P _ h3]
    rintro (h | h | h)
    · exact hne h
    · exact h1 h
    · exact h2 h

/-- Witness of C7 (amended): the zero-value `Config{}` as the only configurator and the
request `"/favicon-16x16.png"`. -/
theorem Handler_relative_prefix_no_trim_witness :
    (Handler ⟨"", 0⟩ [.value ⟨"", "", "", false, "", "", false⟩]).2.comparisonPrefix =
      some "." ∧
    TrimPrefix "/favicon-16x16.png" "." = "/favicon-16x16.png" ∧
    (Handler ⟨"", 0⟩ [.value ⟨"", "", "", false, "", "", false⟩]).2.serve ⟨"", 0⟩
        ⟨fun _ => none, .ok "doc"⟩ "/favicon-16x16.png" =
      detectContentType "/favicon-16x16.png" ++
        [Call.serveHTTP ⟨"", 0⟩ "/favicon-16x16.png"] :=
  have hw := Handler_relative_prefix_no_trim ⟨"", 0⟩ ⟨"", 0⟩
    [.value ⟨"", "", "", false, "", "", false⟩] ⟨fun _ => none, .ok "doc"⟩
    "/favicon-16x16.png" "favicon-16x16.png".data (Or.inl (by decide)) (by decide)
  ⟨hw.1, hw.2.1, hw.2.2.2.2.2 (by decide) (by decide) (by decide)⟩

/-- C7 as stated fails at the request path `"/"`: with the zero-value `Config{}` as the
only configurator, `"/"` begins with `"/"` and is neither `"/index.html"` nor
`"/doc.json"`, yet it is not delegated: the handler renders the index page. -/
theorem Handler_relative_prefix_root_counterexample :
    ("/" : String).data = '/' :: [] ∧ ("/" : String) ≠ "/index.html" ∧
    ("/" : String) ≠ "/doc.json" ∧
    (Handler ⟨"", 0⟩ [.value ⟨"", "", "", false, "", "", false⟩]).2.serve ⟨"", 0⟩
        ⟨fun _ => none, .ok "doc"⟩ "/" =
      [Call.contentType "text/html; charset=utf-8",
        Call.executeIndex ⟨"", ".", "https://fonts.googleapis.com", false, "", "", false⟩] ∧
    delegates ((Handler ⟨"", 0⟩ [.value ⟨"", "", "", false, "", "", false⟩]).2.serve ⟨"", 0⟩
        ⟨fun _ => none, .ok "doc"⟩ "/") = false ∧
    rendersIndex ((Handler ⟨"", 0⟩ [.value ⟨"", "", "", false, "", "", false⟩]).2.serve
        ⟨"", 0⟩ ⟨fun _ => none, .ok "doc"⟩ "/") = true := by
  decide

/-! ## A shared delegate (C8) and the order of configurators (C9) -/

theorem Handler_Prefix_configurator (h : WebdavHandler) (p : String) :
    (p = "" ∨ p = "." →
      Handler h [.func (Prefix p)] =
        (h, IrisHandler.swaggerUI { defaultConfig with Prefix := "." })) ∧
    (¬ (p = "" ∨ p = ".") →
      Handler h [.func (Prefix p)] =
        ({ h with Prefix := p }, IrisHandler.swaggerUI { defaultConfig with Prefix := p })) := by
  have happ : applyConfigurators [.func (Prefix p)] defaultConfig =
      { defaultConfig with Prefix := p } := rfl
  obtain ⟨a, b⟩ := Handler_captures_normalized h [.func (Prefix p)]
  rw [happ] at a b
  constructor
  · intro hp
    exact Prod.ext (a hp).2 (a hp).1
  · intro hp
    exact Prod.ext (b hp).2 (b hp).1

/-- C8 (amended). For every two different prefixes `p1` and `p2` and one shared delegate
`h`, after `Handler(h, Prefix(p1))` and then `Handler(h, Prefix(p2))`: if `p2` is neither
empty nor `"."`, the delegate's `Prefix` field is `p2`, whatever the first construction
wrote, and the second handler compares with `p2`; if `p2` is empty or `"."`, the second
construction leaves the delegate as the first one left it and the second handler compares
with `"."`. In both cases the first handler keeps the comparison prefix of its own
construction: `p1`, or `"."` when `p1` is empty or `"."`. -/
theorem Handler_shared_delegate (h : WebdavHandler) (p1 p2 : String) (_hne : p1 ≠ p2) :
    (¬ (p2 = "" ∨ p2 = ".") →
      (Handler (Handler h [.func (Prefix p1)]).1 [.func (Prefix p2)]).1.Prefix = p2 ∧
      (Handler (Handler h [.func (Prefix p1)]).1 [.func (Prefix p2)]).2.comparisonPrefix =
        some p2) ∧
    (p2 = "" ∨ p2 = "." →
      (Handler (Handler h [.func (Prefix p1)]).1 [.func (Prefix p2)]).1 =
        (Handler h [.func (Prefix p1)]).1 ∧
      (Handler (Handler h [.func (Prefix p1)]).1 [.func (Prefix p2)]).2.comparisonPrefix =
        some ".") ∧
    (Handler h [.func (Prefix p1)]).2.comparisonPrefix =
      some (if p1 = "" ∨ p1 = "." then "." else p1) := by
  refine ⟨?_, ?_, ?_⟩
  · intro hp
    rw [(Handler_Prefix_configurator _ p2).2 hp]
    exact ⟨rfl, rfl⟩
  · intro hp
    rw [(Handler_Prefix_configurator _ p2).1 hp]
    exact ⟨rfl, rfl⟩
  · by_cases hp : p1 = "" ∨ p1 = "."
    · rw [(Handler_Prefix_configurator h p1).1 hp, if_pos hp]
      rfl
    · rw [(Handler_Prefix_configurator h p1).2 hp, if_neg hp]
      rfl

/-- Witness of C8 (amended): the prefixes `"/a"` and then `"/b"` on one delegate. -/
theorem Handler_shared_delegate_witness :
    (Handler (Handler ⟨"", 0⟩ [.func (Prefix "/a")]).1 [.func (Prefix "/b")]).1.Prefix =
      "/b" ∧
    (Handler (Handler ⟨"", 0⟩ [.func (Prefix "/a")]).1
      [.func (Prefix "/b")]).2.comparisonPrefix = some "/b" ∧
    (Handler ⟨"", 0⟩ [.func (Prefix "/a")]).2.comparisonPrefix =
      some (if ("/a" : String) = "" ∨ ("/a" : String) = "." then "." else "/a") :=
  have hw := Handler_shared_delegate ⟨"", 0⟩ "/a" "/b" (by decide)
  ⟨(hw.1 (by decide)).1, (hw.1 (by decide)).2, hw.2.2⟩

/-- C8 as stated fails for the prefixes `"/a"` then `"/b"` on one delegate: the delegate's
`Prefix` is `"/b"`, but the first handler still works with `"/a"`, not `"/b"`: it renders
the index page for `"/a/index.html"`, which the second handler delegates, and delegates
`"/b/index.html"`, for which the second handler renders the index page. -/
theorem Handler_shared_delegate_counterexample :
    (Handler (Handler ⟨"", 0⟩ [.func (Prefix "/a")]).1 [.func (Prefix "/b")]).1.Prefix =
      "/b" ∧
    (Handler ⟨"", 0⟩ [.func (Prefix "/a")]).2.comparisonPrefix = some "/a" ∧
    (Handler ⟨"", 0⟩ [.func (Prefix "/a")]).2.comparisonPrefix ≠ some "/b" ∧
    rendersIndex ((Handler ⟨"", 0⟩ [.func (Prefix "/a")]).2.serve
      (Handler (Handler ⟨"", 0⟩ [.func (Prefix "/a")]).1 [.func (Prefix "/b")]).1
      ⟨fun _ => none, .ok "doc"⟩ "/a/index.html") = true ∧
    rendersIndex ((Handler (Handler ⟨"", 0⟩ [.func (Prefix "/a")]).1
        [.func (Prefix "/b")]).2.serve
      (Handler (Handler ⟨"", 0⟩ [.func (Prefix "/a")]).1 [.func (Prefix "/b")]).1
      ⟨fun _ => none, .ok "doc"⟩ "/a/index.html") = false ∧
    delegates ((Handler ⟨"", 0⟩ [.func (Prefix "/a")]).2.serve
      (Handler (Handler ⟨"", 0⟩ [.func (Prefix "/a")]).1 [.func (Prefix "/b")]).1
      ⟨fun _ => none, .ok "doc"⟩ "/b/index.html") = true ∧
    rendersIndex ((Handler (Handler ⟨"", 0⟩ [.func (Prefix "/a")]).1
        [.func (Prefix "/b")]).2.serve
      (Handler (Handler ⟨"", 0⟩ [.func (Prefix "/a")]).1 [.func (Prefix "/b")]).1
      ⟨fun _ => none, .ok "doc"⟩ "/b/index.html") = true := by
  decide

theorem applyConfigurators_append_two (cs : List Configurator) (a b : Configurator)
    (c : Config) :
    applyConfigurators (cs ++ [a, b]) c =
      b.Configure (a.Configure (applyConfigurators cs c)) := by
  unfold applyConfigurators
  rw [List.foldl_append]
  rfl

/-- C9 (amended). `Handler` applies its configurators in the given order to the default
configuration and a later configurator wins: for every list `cs` and every two
configurators `a` then `b` appended to it that set the same field (`a` to `va`, `b` to
`v`), the configuration the handler captures has that field equal to `v`, the value set by
`b`, unless the field is `Prefix` and `v` is the empty string; in that case the captured
`Prefix` is `"."`. -/
theorem Handler_last_configurator_wins (h : WebdavHandler) (cs : List Configurator)
    (a b : Configurator) (f : Field) (va v : Value)
    (_ha : a.sets f va) (hb : b.sets f v) :
    applyConfigurators (cs ++ [a, b]) defaultConfig =
      b.Configure (a.Configure (applyConfigurators cs defaultConfig)) ∧
    ∃ captured : Config,
      (Handler h (cs ++ [a, b])).2 = IrisHandler.swaggerUI captured ∧
      (¬ (f = Field.Prefix ∧ v = Value.str "") → captured.get f = v) ∧
      (f = Field.Prefix ∧ v = Value.str "" → captured.get f = Value.str ".") := by
  have happ := applyConfigurators_append_two cs a b defaultConfig
  have hv : (applyConfigurators (cs ++ [a, b]) defaultConfig).get f = v := by
    rw [happ]
    exact hb _
  refine ⟨happ, ?_⟩
  obtain ⟨hrelc, habsc⟩ := Handler_captures_normalized h (cs ++ [a, b])
  generalize applyConfigurators (cs ++ [a, b]) defaultConfig = applied at hv hrelc habsc
  by_cases hrel : applied.Prefix = "" ∨ applied.Prefix = "."
  · refine ⟨_, (hrelc hrel).1, ?_, ?_⟩
    · intro hex
      cases f <;> try exact hv
      simp only [Config.get] at hv ⊢
      rcases hrel with hrel | hrel
      · exact absurd ⟨rfl, by rw [← hv, hrel]⟩ hex
      · rw [← hv, hrel]
    · rintro ⟨hf, _⟩
      subst hf
      rfl
  · refine ⟨_, (habsc hrel).1, fun _ => hv, ?_⟩
    rintro ⟨hf, hv2⟩
    subst hf
    simp only [Config.get] at hv
    rw [hv2] at hv
    exact absurd (Or.inl (Value.str.inj hv)) hrel

/-- Witness of C9 (amended): `URL(u1)` then a whole-value `Config` with another `URL`. -/
theorem Handler_last_configurator_wins_witness :
    applyConfigurators ([] ++ [.func (URL "u1"),
        .value ⟨"u2", "/docs", "", true, "list", "#ui", true⟩]) defaultConfig =
      (Configurator.value ⟨"u2", "/docs", "", true, "list", "#ui", true⟩).Configure
        ((Configurator.func (URL "u1")).Configure (applyConfigurators [] defaultConfig)) ∧
    ∃ captured : Config,
      (Handler ⟨"", 0⟩ ([] ++ [.func (URL "u1"),
        .value ⟨"u2", "/docs", "", true, "list", "#ui", true⟩])).2 =
          IrisHandler.swaggerUI captured ∧
      (¬ (Field.URL = Field.Prefix ∧ Value.str "u2" = Value.str "") →
        captured.get Field.URL = Value.str "u2") ∧
      (Field.URL = Field.Prefix ∧ Value.str "u2" = Value.str "" →
        captured.get Field.URL = Value.str ".") :=
  Handler_last_configurator_wins ⟨"", 0⟩ [] (.func (URL "u1"))
    (.value ⟨"u2", "/docs", "", true, "list", "#ui", true⟩) Field.URL (Value.str "u1")
    (Value.str "u2") (fun _ => rfl) (fun _ => rfl)

/-- C9 as stated fails for the field `Prefix`: after `Prefix("/docs")` then `Prefix("")`,
both of which set `Prefix` and the second sets it to `""`, the configuration the handler
captures has `Prefix` `"."`, not `""`. -/
theorem Handler_last_configurator_wins_counterexample :
    (Configurator.func (Prefix "/docs")).sets Field.Prefix (Value.str "/docs") ∧
    (Configurator.func (Prefix "")).sets Field.Prefix (Value.str "") ∧
    (Handler ⟨"", 0⟩ ([] ++ [.func (Prefix "/docs"), .func (Prefix "")])).2 =
      IrisHandler.swaggerUI { defaultConfig with Prefix := "." } ∧
    ({ defaultConfig with Prefix := "." } : Config).get Field.Prefix = Value.str "." ∧
    ({ defaultConfig with Prefix := "." } : Config).get Field.Prefix ≠ Value.str "" :=
  ⟨fun _ => rfl, fun _ => rfl, by decide, by decide, by decide⟩

end Swagger
